import Mathlib

set_option maxRecDepth 100000

/-!
Verification development for the tor-stem descriptor parsing core.

The repository ships the unit and integration tests of its descriptor
engine under `test/`; the parsing engine itself (`stem/descriptor/...`)
is not part of the corpus, so the definitions below are modelled from
the specification (sections 4.3, 4.4 and 7), with the exact failure
message texts taken from the assertions in
`test/unit/descriptor/certificate.py` and the mandatory-field facts
recorded in `test/mocking.py`.

All byte strings are represented as `List Nat`, each element standing
for one byte value.
-/

deriving instance DecidableEq for Except

/-! ## Base64 decoding (model of Python `base64.b64decode`) -/

/-- Modelled from the spec: step (1) of the Ed25519 certificate parser
base64-decodes its input with Python `base64.b64decode`.  `b64val`
maps one ASCII byte of the standard base64 alphabet to its 6-bit
value. -/
def b64val (c : Nat) : Option Nat :=
  if 65 ≤ c ∧ c ≤ 90 then some (c - 65)
  else if 97 ≤ c ∧ c ≤ 122 then some (c - 97 + 26)
  else if 48 ≤ c ∧ c ≤ 57 then some (c - 48 + 52)
  else if c = 43 then some 62
  else if c = 47 then some 63
  else none

/-- A byte that `base64.b64decode` does not discard: an alphabet byte
or the padding byte 61 (the equals sign). -/
def isB64Byte (c : Nat) : Bool :=
  (b64val c).isSome || c == 61

/-- Decode groups of four base64 characters; the final group may carry
one or two padding bytes.  A group shorter than four characters means
the input had invalid padding and yields `none`. -/
def b64groups : List Nat → Option (List Nat)
  | [] => some []
  | c0 :: c1 :: c2 :: c3 :: rest =>
    match b64val c0, b64val c1 with
    | some v0, some v1 =>
      if c2 = 61 then
        if c3 = 61 ∧ rest = [] then some [v0 * 4 + v1 / 16] else none
      else
        match b64val c2 with
        | some v2 =>
          if c3 = 61 then
            if rest = [] then some [v0 * 4 + v1 / 16, v1 % 16 * 16 + v2 / 4] else none
          else
            match b64val c3 with
            | some v3 =>
              (b64groups rest).map
                (fun tl =>
                  (v0 * 4 + v1 / 16) :: (v1 % 16 * 16 + v2 / 4) :: (v2 % 4 * 64 + v3) :: tl)
            | none => none
        | none => none
    | _, _ => none
  | _ => none

/-- Modelled from the spec: Python `base64.b64decode` discards bytes
outside the base64 alphabet and decodes the rest, failing on
incorrect padding. -/
def b64decode (input : List Nat) : Option (List Nat) :=
  b64groups (input.filter isB64Byte)

/-! ## Ed25519 certificate data model -/

/-- The input to `Ed25519Certificate.parse`: the source accepts either
a Python `str` or `bytes` value holding base64 text. -/
inductive CertInput where
  | str (s : String)
  | bytes (b : List Nat)
deriving DecidableEq, Repr

/-- The byte sequence submitted to base64 decoding: a `str` input is
encoded to bytes first (`stem.util.str_tools._to_bytes`), a `bytes`
input is used as is. -/
def CertInput.toBytes : CertInput → List Nat
  | .str s => s.toList.map Char.toNat
  | .bytes b => b

/-- Extension flag bits: bit 0 is AFFECTS_VALIDATION, any other set
bit is reported as the UNKNOWN sentinel. -/
inductive ExtensionFlag where
  | AFFECTS_VALIDATION
  | UNKNOWN
deriving DecidableEq, Repr

/-- The HAS_SIGNING_KEY extension type byte. -/
def HAS_SIGNING_KEY : Nat := 4

/-- One parsed certificate extension.  The source calls the first
field `type`; it is renamed `ext_type` here. -/
structure Ed25519Extension where
  ext_type : Nat
  flags : List ExtensionFlag
  flag_int : Nat
  data : List Nat
deriving DecidableEq, Repr

/-- A parsed version-1 Ed25519 certificate. -/
structure Ed25519CertificateV1 where
  version : Nat
  encoded : CertInput
  cert_type : Nat
  expiration : Nat
  key_type : Nat
  key : List Nat
  extensions : List Ed25519Extension
  signature : List Nat
deriving DecidableEq, Repr

/-- Structured parse failures; `CertError.message` renders each one to
the text the source raises as a `ValueError`. -/
inductive CertError where
  | malformedBase64 (cause : String)
  | tooShort (actual : Nat)
  | unsupportedVersion (v : Nat)
  | reservedCertType (t : Nat)
  | missingExtensionHeader
  | truncatedExtension (declared available : Nat)
  | badSigningKeyLength (actual : Nat)
  | unusedExtensionData (surplus : Nat)
deriving DecidableEq, Repr

/-- Failure message texts, matching the assertions of
`test/unit/descriptor/certificate.py`. -/
def CertError.message : CertError → String
  | .malformedBase64 cause =>
      "Ed25519 certificate wasn\x27t propoerly base64 encoded (" ++ cause ++ "):"
  | .tooShort n =>
      "Ed25519 certificate was " ++ Nat.repr n ++ " bytes, but should be at least 104"
  | .unsupportedVersion v =>
      "Ed25519 certificate is version " ++ Nat.repr v ++
        ". Parser presently only supports version 1."
  | .reservedCertType t =>
      if t = 0 then
        "Ed25519 certificate cannot have a type of 0. This is reserved to avoid conflicts with tor CERTS cells."
      else if t = 7 then
        "Ed25519 certificate cannot have a type of 7. This is reserved for RSA identity cross-certification."
      else
        "Ed25519 certificate cannot have a type of " ++ Nat.repr t ++ "."
  | .missingExtensionHeader =>
      "Ed25519 extension is missing header field data"
  | .truncatedExtension d a =>
      "Ed25519 extension is truncated. It should have " ++ Nat.repr d ++
        " bytes of data but there\x27s only " ++ Nat.repr a ++ "."
  | .badSigningKeyLength n =>
      "Ed25519 HAS_SIGNING_KEY extension must be 32 bytes, but was " ++ Nat.repr n ++ "."
  | .unusedExtensionData n =>
      "Ed25519 certificate had " ++ Nat.repr n ++ " bytes of unused extension data"

/-- Decode the 1-byte extension flag bitfield: bit 0 yields
AFFECTS_VALIDATION, any remaining set bit yields UNKNOWN. -/
def decodeFlags (n : Nat) : List ExtensionFlag :=
  (if n % 2 = 1 then [ExtensionFlag.AFFECTS_VALIDATION] else []) ++
    (if n / 2 ≠ 0 then [ExtensionFlag.UNKNOWN] else [])

/-- Modelled from the spec: step (7) of the certificate parser reads
the declared number of extensions from the region between the fixed
40-byte header and the trailing 64-byte signature.  Each extension is
a 2-byte big-endian length, a type byte, a flag byte and `length`
bytes of data; declaring more data than remains fails naming declared
versus available counts, a HAS_SIGNING_KEY extension must carry
exactly 32 bytes, and by step (8) bytes left over after the declared
extensions fail as unused extension data naming the surplus. -/
def parseExtensions : Nat → List Nat → Except CertError (List Ed25519Extension)
  | 0, [] => Except.ok []
  | 0, leftover => Except.error (.unusedExtensionData leftover.length)
  | count + 1, b0 :: b1 :: b2 :: b3 :: body =>
      let extLen := b0 * 256 + b1
      if body.length < extLen then
        Except.error (.truncatedExtension extLen body.length)
      else
        let data := body.take extLen
        if b2 = HAS_SIGNING_KEY ∧ data.length ≠ 32 then
          Except.error (.badSigningKeyLength data.length)
        else
          match parseExtensions count (body.drop extLen) with
          | Except.error e => Except.error e
          | Except.ok rest =>
              Except.ok ({ ext_type := b2, flags := decodeFlags b3,
                           flag_int := b3, data := data } :: rest)
  | _ + 1, _ => Except.error .missingExtensionHeader

/-- The 4-byte big-endian expiration field, read from bytes 2..5 of
the decoded certificate body. -/
def expirationHours (d : List Nat) : Nat :=
  d.getD 2 0 * 16777216 + d.getD 3 0 * 65536 + d.getD 4 0 * 256 + d.getD 5 0

/-- Modelled from the spec: steps (2)..(8) of the Ed25519 certificate
parser, applied to the already base64-decoded body.  In order: the
104-byte minimum length check, the version byte must be 1, cert type
bytes 0 and 7 are reserved, then the fixed header fields, the
extensions and the trailing 64-byte signature are read. -/
def Ed25519Certificate.parseDecoded (enc : CertInput) (d : List Nat) :
    Except CertError Ed25519CertificateV1 :=
  if d.length < 104 then
    Except.error (.tooShort d.length)
  else if d.getD 0 0 ≠ 1 then
    Except.error (.unsupportedVersion (d.getD 0 0))
  else if d.getD 1 0 = 0 ∨ d.getD 1 0 = 7 then
    Except.error (.reservedCertType (d.getD 1 0))
  else
    match parseExtensions (d.getD 39 0) ((d.drop 40).take (d.length - 104)) with
    | Except.error e => Except.error e
    | Except.ok exts =>
        Except.ok { version := 1
                    encoded := enc
                    cert_type := d.getD 1 0
                    expiration := expirationHours d * 3600
                    key_type := d.getD 6 0
                    key := (d.drop 7).take 32
                    extensions := exts
                    signature := d.drop (d.length - 64) }

/-- Modelled from the spec: `Ed25519Certificate.parse` base64-decodes
its input (an empty or malformed input fails naming the underlying
cause) and hands the decoded body to the layout parser, keeping the
original input as the `encoded` attribute. -/
def Ed25519Certificate.parse (content : CertInput) :
    Except CertError Ed25519CertificateV1 :=
  match b64decode content.toBytes with
  | none => Except.error (.malformedBase64 ("Incorrect padding"))
  | some [] => Except.error (.malformedBase64 ("empty"))
  | some decoded => Ed25519Certificate.parseDecoded content decoded

/-- Serialization of one extension back to its wire form: 2-byte
big-endian declared length, type byte, flag byte, data. -/
def encodeExtension (e : Ed25519Extension) : List Nat :=
  [e.data.length / 256, e.data.length % 256, e.ext_type, e.flag_int] ++ e.data

/-- Serialization of an extension list back to the wire bytes. -/
def encodeExtList (exts : List Ed25519Extension) : List Nat :=
  (exts.map encodeExtension).flatten

/-- Mirror of the `certificate()` helper of
`test/unit/descriptor/certificate.py`: version byte, cert type byte,
four expiration bytes, key type 1, a 32-byte key of 3s, the extension
count, the raw extension bytes and a 64-byte signature of 1s. -/
def certificateBytes (version certType : Nat) (expiration : List Nat)
    (extCount : Nat) (extData : List Nat) : List Nat :=
  [version, certType] ++ expiration ++ [1] ++ List.replicate 32 3 ++
    [extCount] ++ extData ++ List.replicate 64 1

/-! ## Calendar rendering of expiration timestamps -/

/-- Convert days since 1970-01-01 to a (year, month, day) civil date
(proleptic Gregorian calendar). -/
def civilFromDays (z0 : Nat) : Nat × Nat × Nat :=
  let z := z0 + 719468
  let era := z / 146097
  let doe := z % 146097
  let yoe := (doe - doe / 1460 + doe / 36524 - doe / 146096) / 365
  let y := yoe + era * 400
  let doy := doe - (365 * yoe + yoe / 4 - yoe / 100)
  let mp := (5 * doy + 2) / 153
  let dd := doy - (153 * mp + 2) / 5 + 1
  let m := if mp < 10 then mp + 3 else mp - 9
  (if m ≤ 2 then y + 1 else y, m, dd)

/-- Render seconds since the epoch as
(year, month, day, hour, minute), the fields of the
`datetime.datetime` values asserted by the tests. -/
def dateTimeOfSecs (secs : Nat) : Nat × Nat × Nat × Nat × Nat :=
  let days := secs / 86400
  let rem := secs % 86400
  let c := civilFromDays days
  (c.1, c.2.1, c.2.2, rem / 3600, rem % 3600 / 60)

/-! ## Certificate validation against a document -/

/-- The key of the first HAS_SIGNING_KEY extension, when present. -/
def signingKeyOf (cert : Ed25519CertificateV1) : Option (List Nat) :=
  (cert.extensions.find? (fun e => e.ext_type == HAS_SIGNING_KEY)).map (fun e => e.data)

/-- Modelled from the spec: `Certificate.validate` resolves the
verification key as (a) a caller-supplied override, else (b) the key
embedded in a HAS_SIGNING_KEY extension, else (c) the certificate
key. -/
def resolveVerificationKey (cert : Ed25519CertificateV1)
    (override : Option (List Nat)) : List Nat :=
  match override with
  | some k => k
  | none =>
    match signingKeyOf cert with
    | some k => k
    | none => cert.key

/-- Modelled from the spec: `Certificate.validate` recomputes the
digest over the pre-signature body of the target document and checks
the certificate signature under the resolved key; a mismatch fails as
forged or corrupt.  The Ed25519 primitive itself lives outside the
repository (pynacl), so it is abstracted as the `verify` argument,
taking the key, the digested body and the signature. -/
def Ed25519CertificateV1.validate (cert : Ed25519CertificateV1)
    (verify : List Nat → List Nat → List Nat → Bool)
    (docBody : List Nat) (override : Option (List Nat)) : Except String Unit :=
  if verify (resolveVerificationKey cert override) docBody cert.signature then
    Except.ok ()
  else
    Except.error
      ("Ed25519KeyCertificate signing key is invalid (Signature was forged or corrupt)")

/-! ## Document assembly (keyword-line schema engine) -/

/-- One keyword line of a descriptor: a keyword and its argument
text. -/
structure DescriptorEntry where
  keyword : String
  argument : String
deriving DecidableEq, Repr

/-- The cardinality of a schema field: exactly-one, zero-or-one or
zero-or-more occurrences. -/
inductive Cardinality where
  | exactlyOne
  | zeroOrOne
  | zeroOrMore
deriving DecidableEq, Repr

/-- One field descriptor of a schema: keyword, cardinality, a
positional constraint (whether the keyword must open the document)
and an argument-shape check. -/
structure FieldRule where
  keyword : String
  cardinality : Cardinality
  mustBeFirst : Bool
  argCheck : String → Bool

/-- A per-dialect schema: the ordered field descriptors. -/
structure DocumentSchema where
  fields : List FieldRule

/-- The field descriptor of a keyword, when the schema knows it. -/
def findRule (s : DocumentSchema) (k : String) : Option FieldRule :=
  s.fields.find? (fun r => r.keyword == k)

/-- A line is recognized when its keyword is in the schema. -/
def isKnown (s : DocumentSchema) (l : DescriptorEntry) : Bool :=
  (findRule s l.keyword).isSome

/-- Whether the cardinality forbids a second occurrence. -/
def atMostOnce (c : Cardinality) : Bool :=
  match c with
  | .zeroOrMore => false
  | _ => true

/-- The keywords whose cardinality is exactly-one: the mandatory set
strict mode verifies after exhausting the lines. -/
def mandatoryKeywords (s : DocumentSchema) : List String :=
  (s.fields.filter (fun r => r.cardinality == Cardinality.exactlyOne)).map
    (fun r => r.keyword)

/-- Whether some line of the document carries the given keyword. -/
def hasKeyword (lines : List DescriptorEntry) (k : String) : Bool :=
  lines.any (fun l => l.keyword == k)

/-- Assembly failures: the aggregated missing mandatory keywords of
strict mode, a schema violation (a duplicated or misplaced keyword,
naming keyword and reason), or a recognized line whose argument
fails its shape check. -/
inductive DocError where
  | missingFields (fields : List String)
  | schemaViolation (keyword reason : String)
  | badArgument (keyword argument : String)
deriving DecidableEq, Repr

/-- Rendered assembly failure text. -/
def DocError.message : DocError → String
  | .missingFields fields =>
      "Descriptor is missing mandatory fields: " ++ String.intercalate (", ") fields
  | .schemaViolation k reason =>
      "Descriptor line " ++ k ++ " violates the schema: " ++ reason
  | .badArgument k a => "Descriptor line " ++ k ++ " has a malformed argument: " ++ a

/-- Discriminator: is this failure the aggregated missing-fields
error? -/
def DocError.isMissingFields : DocError → Bool
  | .missingFields _ => true
  | _ => false

/-- Discriminator: is this failure an argument-shape error? -/
def DocError.isBadArgument : DocError → Bool
  | .badArgument _ _ => true
  | _ => false

/-- An assembled document: the recognized lines and the
unrecognized-content collection, in original order. -/
structure ParsedDocument where
  recognized : List DescriptorEntry
  unrecognized : List DescriptorEntry
deriving DecidableEq, Repr

/-- The unrecognized-content accessor, `get_unrecognized_lines` in the
source. -/
def get_unrecognized_lines (doc : ParsedDocument) : List DescriptorEntry :=
  doc.unrecognized

/-- The stored argument of the first line with the given recognized
keyword, `none` when the field was left unset. -/
def fieldValue (doc : ParsedDocument) (k : String) : Option String :=
  (doc.recognized.find? (fun l => l.keyword == k)).map (fun l => l.argument)

/-- Modelled from the spec: the per-line pass of the Document
Assembler.  `prev` holds the lines already consumed.  For each line:
look up its keyword; an unrecognized line is skipped (routed to the
unrecognized-content collection, never an error); a recognized line
is checked incrementally for its positional constraint, its
cardinality (a second occurrence of an exactly-one or zero-or-one
keyword is a schema violation naming keyword and reason) and its
argument shape.  The first violation is returned. -/
def scanLines (s : DocumentSchema) :
    List DescriptorEntry → List DescriptorEntry → Option DocError
  | _, [] => none
  | prev, l :: rest =>
    match findRule s l.keyword with
    | none => scanLines s (prev ++ [l]) rest
    | some r =>
      if r.mustBeFirst && ! prev.isEmpty then
        some (.schemaViolation l.keyword ("must be the first line"))
      else if atMostOnce r.cardinality && hasKeyword prev l.keyword then
        some (.schemaViolation l.keyword ("appears more than once"))
      else if ! r.argCheck l.argument then
        some (.badArgument l.keyword l.argument)
      else
        scanLines s (prev ++ [l]) rest

/-- Modelled from the spec: the Document Assembler routes every line
either to its schema field or to the unrecognized-content collection.
Strict (validate) mode walks the lines checking position, cardinality
and argument shape incrementally (first violation wins) and, after
exhausting the lines, fails with one aggregated error naming all
missing exactly-one keywords; permissive mode leaves missing fields
unset and never fails. -/
def assemble (s : DocumentSchema) (validate : Bool)
    (lines : List DescriptorEntry) : Except DocError ParsedDocument :=
  if validate then
    match scanLines s [] lines with
    | some e => Except.error e
    | none =>
      if ((mandatoryKeywords s).filter (fun k => ! hasKeyword lines k)).isEmpty then
        Except.ok ⟨lines.filter (fun l => isKnown s l),
                   lines.filter (fun l => ! isKnown s l)⟩
      else
        Except.error
          (.missingFields ((mandatoryKeywords s).filter (fun k => ! hasKeyword lines k)))
  else
    Except.ok ⟨lines.filter (fun l => isKnown s l),
               lines.filter (fun l => ! isKnown s l)⟩

/-- Modelled from the spec and from `test/mocking.py`: the schema of a
v3 directory-authority entry.  `dir-source` opens the entry and is
exactly-one, `contact` is exactly-one; per the
`get_directory_authority` mock, entries from a consensus also have a
mandatory (exactly-one) `vote-digest` field, while vote entries do
not require one. -/
def authoritySchema (is_vote : Bool) : DocumentSchema :=
  { fields :=
      [{ keyword := ("dir-source"), cardinality := Cardinality.exactlyOne,
         mustBeFirst := true, argCheck := fun _ => true },
       { keyword := ("contact"), cardinality := Cardinality.exactlyOne,
         mustBeFirst := false, argCheck := fun _ => true },
       { keyword := ("legacy-dir-key"), cardinality := Cardinality.zeroOrOne,
         mustBeFirst := false, argCheck := fun _ => true },
       { keyword := ("vote-digest"),
         cardinality :=
           if is_vote then Cardinality.zeroOrOne else Cardinality.exactlyOne,
         mustBeFirst := false, argCheck := fun _ => true }] }

/-- Modelled from the spec: `DirectoryAuthority(content, validate,
is_vote)` assembles one directory-authority entry under the schema of
its dialect. -/
def parseDirectoryAuthority (validate is_vote : Bool)
    (lines : List DescriptorEntry) : Except DocError ParsedDocument :=
  assemble (authoritySchema is_vote) validate lines

/-- The authority entry content built by `get_directory_authority` in
`test/mocking.py` for a vote (`AUTHORITY_HEADER`, which carries no
`vote-digest` line). -/
def voteAuthorityLines : List DescriptorEntry :=
  [⟨("dir-source"),
    ("turtles 27B6B5996C426270A5C95488AA5BCEB6BCC86956 no.place.com 76.73.17.194 9030 9090")⟩,
   ⟨("contact"), ("Mike Perry <email>")⟩]

/-- The consensus flavour of the same mock entry: `AUTHORITY_HEADER`
plus the `vote-digest` attribute `get_directory_authority` adds when
`is_vote` is false. -/
def consensusAuthorityLines : List DescriptorEntry :=
  voteAuthorityLines ++
    [⟨("vote-digest"), ("0B6D1E9A300B895AA2D0B427F92917B6995C3C1C")⟩]

/-- The document assembled from `consensusAuthorityLines`: every line
is recognized by the authority schema. -/
def consensusAuthorityDoc : ParsedDocument := ⟨consensusAuthorityLines, []⟩

/-- A keyword line outside every schema used here, the `zz` line of
the specification scenario. -/
def zzEntry : DescriptorEntry := ⟨("zz"), ("unrecognized-content")⟩

/-- The consensus entry with its exactly-one `contact` line
duplicated. -/
def dupAuthorityLines : List DescriptorEntry :=
  consensusAuthorityLines ++ [⟨("contact"), ("Mike Perry <email>")⟩]

/-! ## Helper lemmas -/

theorem strToList_append (s t : String) : (s ++ t).toList = s.toList ++ t.toList := by
  cases s; cases t; rfl

/-- The message `msg` mentions the text `pat`. -/
def mentionsStr (msg pat : String) : Prop :=
  List.IsInfix pat.toList msg.toList

instance (msg pat : String) : Decidable (mentionsStr msg pat) :=
  inferInstanceAs (Decidable (List.IsInfix pat.toList msg.toList))

/-- The message `msg` mentions the decimal rendering of `n`. -/
def mentionsNat (msg : String) (n : Nat) : Prop :=
  mentionsStr msg (Nat.repr n)

instance (msg : String) (n : Nat) : Decidable (mentionsNat msg n) :=
  inferInstanceAs (Decidable (mentionsStr msg (Nat.repr n)))

theorem mentions_mid (a b c : String) : mentionsStr (a ++ b ++ c) b := by
  refine ⟨a.toList, c.toList, ?_⟩
  simp [strToList_append]

theorem mentions_right (a c pat : String) (h : mentionsStr c pat) :
    mentionsStr (a ++ c) pat := by
  refine h.trans ⟨a.toList, [], ?_⟩
  simp [strToList_append]

theorem mentions_left (a c pat : String) (h : mentionsStr a pat) :
    mentionsStr (a ++ c) pat := by
  refine h.trans ⟨[], c.toList, ?_⟩
  simp [strToList_append]

theorem parseExtensions_ok (count : Nat) :
    ∀ (rem : List Nat) (exts : List Ed25519Extension),
      parseExtensions count rem = Except.ok exts →
      (∀ b ∈ rem, b < 256) →
      encodeExtList exts = rem ∧ exts.length = count := by
  induction count with
  | zero =>
    intro rem exts h _
    cases rem with
    | nil =>
      simp only [parseExtensions, Except.ok.injEq] at h
      subst h
      exact ⟨rfl, rfl⟩
    | cons a l => simp [parseExtensions] at h
  | succ n ih =>
    intro rem exts h hb
    rcases rem with _ | ⟨b0, _ | ⟨b1, _ | ⟨b2, _ | ⟨b3, body⟩⟩⟩⟩
    · simp [parseExtensions] at h
    · simp [parseExtensions] at h
    · simp [parseExtensions] at h
    · simp [parseExtensions] at h
    · simp only [parseExtensions] at h
      by_cases h1 : body.length < b0 * 256 + b1
      · rw [if_pos h1] at h
        exact absurd h (by simp)
      · rw [if_neg h1] at h
        by_cases h2 : b2 = HAS_SIGNING_KEY ∧ (body.take (b0 * 256 + b1)).length ≠ 32
        · rw [if_pos h2] at h
          exact absurd h (by simp)
        · rw [if_neg h2] at h
          cases heq : parseExtensions n (body.drop (b0 * 256 + b1)) with
          | error e => rw [heq] at h; exact absurd h (by simp)
          | ok rest =>
            rw [heq] at h
            simp only [Except.ok.injEq] at h
            subst h
            have hbody : ∀ b ∈ body, b < 256 := by
              intro b hbm
              exact hb b (by simp [hbm])
            have hrest := ih (body.drop (b0 * 256 + b1)) rest heq
              (fun b hbm => hbody b (List.drop_subset _ _ hbm))
            have hb1 : b1 < 256 := hb b1 (by simp)
            have hlen : (body.take (b0 * 256 + b1)).length = b0 * 256 + b1 := by
              rw [List.length_take]
              omega
            constructor
            · simp only [encodeExtList, List.map_cons, List.flatten_cons, encodeExtension]
              rw [hlen]
              have hd : (b0 * 256 + b1) / 256 = b0 := by omega
              have hm : (b0 * 256 + b1) % 256 = b1 := by omega
              rw [hd, hm]
              have : encodeExtList rest = body.drop (b0 * 256 + b1) := hrest.1
              simp only [encodeExtList] at this
              rw [this]
              simp [List.take_append_drop]
            · simp [hrest.2]

theorem parseExtensions_error_cases (count : Nat) :
    ∀ (rem : List Nat) (e : CertError),
      parseExtensions count rem = Except.error e →
      e = CertError.missingExtensionHeader ∨
        (∃ da a, e = CertError.truncatedExtension da a) ∨
        (∃ a, e = CertError.badSigningKeyLength a) ∨
        (∃ s, e = CertError.unusedExtensionData s) := by
  induction count with
  | zero =>
    intro rem e h
    cases rem with
    | nil => simp [parseExtensions] at h
    | cons a l =>
      simp only [parseExtensions, Except.error.injEq] at h
      subst h
      exact Or.inr (Or.inr (Or.inr ⟨_, rfl⟩))
  | succ n ih =>
    intro rem e h
    rcases rem with _ | ⟨b0, _ | ⟨b1, _ | ⟨b2, _ | ⟨b3, body⟩⟩⟩⟩
    · simp only [parseExtensions, Except.error.injEq] at h
      exact Or.inl h.symm
    · simp only [parseExtensions, Except.error.injEq] at h
      exact Or.inl h.symm
    · simp only [parseExtensions, Except.error.injEq] at h
      exact Or.inl h.symm
    · simp only [parseExtensions, Except.error.injEq] at h
      exact Or.inl h.symm
    · simp only [parseExtensions] at h
      by_cases h1 : body.length < b0 * 256 + b1
      · rw [if_pos h1] at h
        simp only [Except.error.injEq] at h
        exact Or.inr (Or.inl ⟨_, _, h.symm⟩)
      · rw [if_neg h1] at h
        by_cases h2 : b2 = HAS_SIGNING_KEY ∧ (body.take (b0 * 256 + b1)).length ≠ 32
        · rw [if_pos h2] at h
          simp only [Except.error.injEq] at h
          exact Or.inr (Or.inr (Or.inl ⟨_, h.symm⟩))
        · rw [if_neg h2] at h
          cases heq : parseExtensions n (body.drop (b0 * 256 + b1)) with
          | error e2 =>
            rw [heq] at h
            simp only [Except.error.injEq] at h
            subst h
            exact ih _ _ heq
          | ok rest => rw [heq] at h; exact absurd h (by simp)

theorem parseExtensions_signingKey (count : Nat) :
    ∀ (rem : List Nat) (exts : List Ed25519Extension),
      parseExtensions count rem = Except.ok exts →
      ∀ e ∈ exts, e.ext_type = HAS_SIGNING_KEY → e.data.length = 32 := by
  induction count with
  | zero =>
    intro rem exts h
    cases rem with
    | nil =>
      simp only [parseExtensions, Except.ok.injEq] at h
      subst h
      intro e he
      exact absurd he (by simp)
    | cons a l => simp [parseExtensions] at h
  | succ n ih =>
    intro rem exts h
    rcases rem with _ | ⟨b0, _ | ⟨b1, _ | ⟨b2, _ | ⟨b3, body⟩⟩⟩⟩
    · simp [parseExtensions] at h
    · simp [parseExtensions] at h
    · simp [parseExtensions] at h
    · simp [parseExtensions] at h
    · simp only [parseExtensions] at h
      by_cases h1 : body.length < b0 * 256 + b1
      · rw [if_pos h1] at h
        exact absurd h (by simp)
      · rw [if_neg h1] at h
        by_cases h2 : b2 = HAS_SIGNING_KEY ∧ (body.take (b0 * 256 + b1)).length ≠ 32
        · rw [if_pos h2] at h
          exact absurd h (by simp)
        · rw [if_neg h2] at h
          cases heq : parseExtensions n (body.drop (b0 * 256 + b1)) with
          | error e2 => rw [heq] at h; exact absurd h (by simp)
          | ok rest =>
            rw [heq] at h
            simp only [Except.ok.injEq] at h
            subst h
            intro e he htype
            rcases List.mem_cons.mp he with hhead | htail
            · subst hhead
              simp only at htype
              push_neg at h2
              simpa using h2 htype
            · exact ih _ _ heq e htail htype

theorem parseDecoded_ok_inv (enc : CertInput) (d : List Nat)
    (cert : Ed25519CertificateV1)
    (h : Ed25519Certificate.parseDecoded enc d = Except.ok cert) :
    104 ≤ d.length ∧ d.getD 0 0 = 1 ∧ d.getD 1 0 ≠ 0 ∧ d.getD 1 0 ≠ 7 ∧
      parseExtensions (d.getD 39 0) ((d.drop 40).take (d.length - 104)) =
        Except.ok cert.extensions ∧
      cert.version = 1 ∧ cert.encoded = enc ∧ cert.cert_type = d.getD 1 0 ∧
      cert.expiration = expirationHours d * 3600 ∧ cert.key_type = d.getD 6 0 ∧
      cert.key = (d.drop 7).take 32 ∧ cert.signature = d.drop (d.length - 64) := by
  simp only [Ed25519Certificate.parseDecoded] at h
  by_cases h1 : d.length < 104
  · rw [if_pos h1] at h
    exact absurd h (by simp)
  · rw [if_neg h1] at h
    by_cases h2 : d.getD 0 0 ≠ 1
    · rw [if_pos h2] at h
      exact absurd h (by simp)
    · rw [if_neg h2] at h
      by_cases h3 : d.getD 1 0 = 0 ∨ d.getD 1 0 = 7
      · rw [if_pos h3] at h
        exact absurd h (by simp)
      · rw [if_neg h3] at h
        cases heq : parseExtensions (d.getD 39 0) ((d.drop 40).take (d.length - 104)) with
        | error e => rw [heq] at h; exact absurd h (by simp)
        | ok exts =>
          rw [heq] at h
          simp only [Except.ok.injEq] at h
          subst h
          push_neg at h2 h3
          exact ⟨by omega, h2, h3.1, h3.2, rfl, rfl, rfl, rfl, rfl, rfl, rfl, rfl⟩

theorem scanLines_some (s : DocumentSchema) :
    ∀ (rest prev : List DescriptorEntry) (e : DocError),
      scanLines s prev rest = some e →
      ∃ l, l ∈ rest ∧ isKnown s l = true ∧
        (e = DocError.schemaViolation l.keyword ("must be the first line") ∨
         e = DocError.schemaViolation l.keyword ("appears more than once") ∨
         e = DocError.badArgument l.keyword l.argument) := by
  intro rest
  induction rest with
  | nil =>
    intro prev e h
    simp [scanLines] at h
  | cons l rest ih =>
    intro prev e h
    simp only [scanLines] at h
    cases hf : findRule s l.keyword with
    | none =>
      simp only [hf] at h
      obtain ⟨l2, hl2, hk, hcase⟩ := ih (prev ++ [l]) e h
      exact ⟨l2, List.mem_cons_of_mem _ hl2, hk, hcase⟩
    | some r =>
      simp only [hf] at h
      by_cases h1 : (r.mustBeFirst && ! prev.isEmpty) = true
      · rw [if_pos h1] at h
        simp only [Option.some.injEq] at h
        exact ⟨l, List.mem_cons_self _ _, by simp [isKnown, hf], Or.inl h.symm⟩
      · rw [if_neg h1] at h
        by_cases h2 : (atMostOnce r.cardinality && hasKeyword prev l.keyword) = true
        · rw [if_pos h2] at h
          simp only [Option.some.injEq] at h
          exact ⟨l, List.mem_cons_self _ _, by simp [isKnown, hf],
                 Or.inr (Or.inl h.symm)⟩
        · rw [if_neg h2] at h
          by_cases h3 : (! r.argCheck l.argument) = true
          · rw [if_pos h3] at h
            simp only [Option.some.injEq] at h
            exact ⟨l, List.mem_cons_self _ _, by simp [isKnown, hf],
                   Or.inr (Or.inr h.symm)⟩
          · rw [if_neg h3] at h
            obtain ⟨l2, hl2, hk, hcase⟩ := ih (prev ++ [l]) e h
            exact ⟨l2, List.mem_cons_of_mem _ hl2, hk, hcase⟩

theorem scanLines_append_unknown (s : DocumentSchema) (z : DescriptorEntry)
    (hz : isKnown s z = false) :
    ∀ (rest prev : List DescriptorEntry),
      scanLines s prev rest = none →
      scanLines s prev (rest ++ [z]) = none := by
  have hfz : findRule s z.keyword = none := by
    unfold isKnown at hz
    cases hfz2 : findRule s z.keyword with
    | none => rfl
    | some r =>
      rw [hfz2] at hz
      exact absurd hz (by simp)
  intro rest
  induction rest with
  | nil =>
    intro prev _
    simp [scanLines, hfz]
  | cons l rest ih =>
    intro prev h
    simp only [scanLines] at h ⊢
    cases hf : findRule s l.keyword with
    | none =>
      simp only [hf] at h ⊢
      exact ih (prev ++ [l]) h
    | some r =>
      simp only [hf] at h ⊢
      by_cases h1 : (r.mustBeFirst && ! prev.isEmpty) = true
      · rw [if_pos h1] at h
        exact absurd h (by simp)
      · rw [if_neg h1] at h ⊢
        by_cases h2 : (atMostOnce r.cardinality && hasKeyword prev l.keyword) = true
        · rw [if_pos h2] at h
          exact absurd h (by simp)
        · rw [if_neg h2] at h ⊢
          by_cases h3 : (! r.argCheck l.argument) = true
          · rw [if_pos h3] at h
            exact absurd h (by simp)
          · rw [if_neg h3] at h ⊢
            exact ih (prev ++ [l]) h

theorem fieldValue_filter_none (s : DocumentSchema)
    (lines : List DescriptorEntry) (k : String) (h : hasKeyword lines k = false) :
    fieldValue ⟨lines.filter (fun l => isKnown s l),
                lines.filter (fun l => ! isKnown s l)⟩ k = none := by
  unfold fieldValue
  have hnone :
      (lines.filter (fun l => isKnown s l)).find? (fun l => l.keyword == k) = none := by
    apply List.find?_eq_none.mpr
    intro l hl
    have hlm : l ∈ lines := List.mem_of_mem_filter hl
    unfold hasKeyword at h
    have := (List.any_eq_false.mp h) l hlm
    simpa using this
  rw [hnone]
  rfl

/-! ## Claims C2 and C3: document assembly -/

/-- C3 counterexample: strict assembly of the consensus entry with a
duplicated exactly-one `contact` line fails with a cardinality schema
violation, a third strict error kind that is neither the aggregated
missing-mandatory-field error nor an argument-shape error, even
though every mandatory keyword is present — so strict validation does
not reject only missing-mandatory-field and argument-shape
violations. -/
theorem claim_C3_counterexample :
    assemble (authoritySchema false) true dupAuthorityLines =
        Except.error (.schemaViolation ("contact") ("appears more than once")) ∧
      (DocError.schemaViolation ("contact") ("appears more than once")).isMissingFields =
        false ∧
      (DocError.schemaViolation ("contact") ("appears more than once")).isBadArgument =
        false ∧
      hasKeyword dupAuthorityLines ("dir-source") = true ∧
      hasKeyword dupAuthorityLines ("contact") = true ∧
      hasKeyword dupAuthorityLines ("vote-digest") = true := by decide

/-- C3 (amended): for every document assembled in strict (validate)
mode, a line whose keyword is outside the schema never causes the
parse to fail: every strict failure is either the aggregated
missing-mandatory-field error or is attributable to a recognized
line — a schema violation (duplicated or misplaced exactly-one or
zero-or-one keyword) or a malformed argument — never to an
unrecognized line; on success the unrecognized lines are preserved,
in order, in the collection `get_unrecognized_lines` returns; and
appending an unrecognized line to a strictly parsable document keeps
it strictly parsable, the new line landing in the
unrecognized-content collection. -/
theorem claim_C3 :
    (∀ (s : DocumentSchema) (lines : List DescriptorEntry) (e : DocError),
        assemble s true lines = Except.error e →
        (∃ fields, e = DocError.missingFields fields ∧
            ∃ k, k ∈ fields ∧ k ∈ mandatoryKeywords s ∧ hasKeyword lines k = false) ∨
          (∃ l, l ∈ lines ∧ isKnown s l = true ∧
            (e = DocError.schemaViolation l.keyword ("must be the first line") ∨
             e = DocError.schemaViolation l.keyword ("appears more than once") ∨
             e = DocError.badArgument l.keyword l.argument))) ∧
    (∀ (s : DocumentSchema) (lines : List DescriptorEntry) (doc : ParsedDocument),
        assemble s true lines = Except.ok doc →
        get_unrecognized_lines doc = lines.filter (fun l => ! isKnown s l)) ∧
    (∀ (s : DocumentSchema) (lines : List DescriptorEntry) (doc : ParsedDocument)
        (z : DescriptorEntry),
        assemble s true lines = Except.ok doc → isKnown s z = false →
        assemble s true (lines ++ [z]) =
          Except.ok ⟨doc.recognized, get_unrecognized_lines doc ++ [z]⟩) := by
  refine ⟨?_, ?_, ?_⟩
  · intro s lines e h
    unfold assemble at h
    rw [if_pos rfl] at h
    cases hs : scanLines s [] lines with
    | some e2 =>
      simp only [hs] at h
      simp only [Except.error.injEq] at h
      subst h
      obtain ⟨l, hl, hk, hcase⟩ := scanLines_some s lines [] e2 hs
      exact Or.inr ⟨l, hl, hk, hcase⟩
    | none =>
      simp only [hs] at h
      by_cases hm : ((mandatoryKeywords s).filter (fun k => ! hasKeyword lines k)).isEmpty
      · rw [if_pos hm] at h
        exact absurd h (by simp)
      · rw [if_neg hm] at h
        simp only [Except.error.injEq] at h
        subst h
        have hne : (mandatoryKeywords s).filter (fun k => ! hasKeyword lines k) ≠ [] := by
          simpa [List.isEmpty_iff] using hm
        obtain ⟨k, hk⟩ := List.exists_mem_of_ne_nil _ hne
        have hkf := List.mem_filter.mp hk
        exact Or.inl ⟨_, rfl, k, hk, hkf.1, by simpa using hkf.2⟩
  · intro s lines doc h
    unfold assemble at h
    rw [if_pos rfl] at h
    cases hs : scanLines s [] lines with
    | some e2 =>
      simp only [hs] at h
      exact absurd h (by simp)
    | none =>
      simp only [hs] at h
      by_cases hm : ((mandatoryKeywords s).filter (fun k => ! hasKeyword lines k)).isEmpty
      · rw [if_pos hm] at h
        simp only [Except.ok.injEq] at h
        subst h
        rfl
      · rw [if_neg hm] at h
        exact absurd h (by simp)
  · intro s lines doc z h hz
    unfold assemble at h ⊢
    rw [if_pos rfl] at h ⊢
    cases hs : scanLines s [] lines with
    | some e2 =>
      simp only [hs] at h
      exact absurd h (by simp)
    | none =>
      simp only [hs] at h
      have hsz : scanLines s [] (lines ++ [z]) = none :=
        scanLines_append_unknown s z hz lines [] hs
      simp only [hsz]
      by_cases hm : ((mandatoryKeywords s).filter (fun k => ! hasKeyword lines k)).isEmpty
      · rw [if_pos hm] at h
        simp only [Except.ok.injEq] at h
        subst h
        have hall : ∀ k ∈ mandatoryKeywords s, hasKeyword lines k = true := by
          intro k hk
          have hnil := List.isEmpty_iff.mp hm
          have := List.filter_eq_nil_iff.mp hnil k hk
          simpa using this
        have hm2 : (((mandatoryKeywords s).filter
            (fun k => ! hasKeyword (lines ++ [z]) k))).isEmpty = true := by
          have hnil : (mandatoryKeywords s).filter
              (fun k => ! hasKeyword (lines ++ [z]) k) = [] := by
            rw [List.filter_eq_nil_iff]
            intro k hk
            have hk2 := hall k hk
            unfold hasKeyword at hk2 ⊢
            simp [List.any_append, hk2]
          rw [hnil]
          rfl
        rw [if_pos hm2]
        simp only [Except.ok.injEq, get_unrecognized_lines]
        rw [List.filter_append, List.filter_append]
        simp [List.filter, hz]
      · rw [if_neg hm] at h
        exact absurd h (by simp)

/-- C3 witness: the consensus directory-authority schema at the
mock-built consensus entry, with the unrecognized keyword `zz`
appended: strict assembly still succeeds and `zz` is retrievable from
the unrecognized-content collection. -/
theorem claim_C3_witness :
    get_unrecognized_lines consensusAuthorityDoc =
        consensusAuthorityLines.filter (fun l => ! isKnown (authoritySchema false) l) ∧
      assemble (authoritySchema false) true (consensusAuthorityLines ++ [zzEntry]) =
        Except.ok ⟨consensusAuthorityDoc.recognized,
                   get_unrecognized_lines consensusAuthorityDoc ++ [zzEntry]⟩ :=
  ⟨claim_C3.2.1 (authoritySchema false) consensusAuthorityLines consensusAuthorityDoc
      (by decide),
   claim_C3.2.2 (authoritySchema false) consensusAuthorityLines consensusAuthorityDoc
      zzEntry (by decide) (by decide)⟩

/-- C2 counterexample: the vote directory-authority entry built by
`test/mocking.py` (`dir-source` and `contact`, no `vote-digest`)
parses successfully in strict mode, so a vote authority entry lacking
`vote-digest` does not fail strict parsing as the claim states. -/
theorem claim_C2_counterexample :
    parseDirectoryAuthority true true voteAuthorityLines =
        Except.ok ⟨voteAuthorityLines, []⟩ ∧
      fieldValue ⟨voteAuthorityLines, []⟩ ("vote-digest") = none := by decide

/-- C2 (amended): `vote-digest` is mandatory for the directory
authority entries of a v3 CONSENSUS, not of a vote: for every entry
whose lines pass the per-line schema scan (no duplicated or misplaced
keywords and well-shaped arguments, in both dialects) and that
carries `dir-source` and `contact` but no `vote-digest`, strict
consensus parsing fails with the aggregated error naming
`vote-digest`, permissive parsing of the same lines succeeds with the
field left unset, and strict VOTE parsing of the same lines
succeeds. -/
theorem claim_C2 :
    ∀ lines : List DescriptorEntry,
      scanLines (authoritySchema false) [] lines = none →
      scanLines (authoritySchema true) [] lines = none →
      hasKeyword lines ("dir-source") = true →
      hasKeyword lines ("contact") = true →
      hasKeyword lines ("vote-digest") = false →
      (parseDirectoryAuthority true false lines =
          Except.error (.missingFields [("vote-digest")]) ∧
        mentionsStr (DocError.missingFields [("vote-digest")]).message ("vote-digest")) ∧
      parseDirectoryAuthority false false lines =
          Except.ok ⟨lines.filter (fun l => isKnown (authoritySchema false) l),
                     lines.filter (fun l => ! isKnown (authoritySchema false) l)⟩ ∧
      fieldValue ⟨lines.filter (fun l => isKnown (authoritySchema false) l),
                  lines.filter (fun l => ! isKnown (authoritySchema false) l)⟩
          ("vote-digest") = none ∧
      parseDirectoryAuthority true true lines =
          Except.ok ⟨lines.filter (fun l => isKnown (authoritySchema true) l),
                     lines.filter (fun l => ! isKnown (authoritySchema true) l)⟩ := by
  intro lines hsc hsv h1 h2 h3
  refine ⟨⟨?_, by decide⟩, ?_, ?_, ?_⟩
  · unfold parseDirectoryAuthority assemble
    rw [if_pos rfl]
    simp only [hsc]
    have hfil : (mandatoryKeywords (authoritySchema false)).filter
        (fun k => ! hasKeyword lines k) = [("vote-digest")] := by
      have hmand : mandatoryKeywords (authoritySchema false) =
          [("dir-source"), ("contact"), ("vote-digest")] := by decide
      rw [hmand]
      simp [List.filter, h1, h2, h3]
    rw [hfil]
    rfl
  · unfold parseDirectoryAuthority assemble
    rfl
  · exact fieldValue_filter_none (authoritySchema false) lines ("vote-digest") h3
  · unfold parseDirectoryAuthority assemble
    rw [if_pos rfl]
    simp only [hsv]
    have hfil : (mandatoryKeywords (authoritySchema true)).filter
        (fun k => ! hasKeyword lines k) = [] := by
      have hmand : mandatoryKeywords (authoritySchema true) =
          [("dir-source"), ("contact")] := by decide
      rw [hmand]
      simp [List.filter, h1, h2]
    rw [hfil]
    rfl

/-- C2 witness: the amended claim at the mock consensus-entry content
with its `vote-digest` line removed. -/
theorem claim_C2_witness :
    parseDirectoryAuthority true false voteAuthorityLines =
        Except.error (.missingFields [("vote-digest")]) ∧
      mentionsStr (DocError.missingFields [("vote-digest")]).message ("vote-digest") :=
  (claim_C2 voteAuthorityLines (by decide) (by decide) (by decide) (by decide)
    (by decide)).1

/-! ## Concrete certificate fixtures -/

/-- The extension bytes of `test_basic_parsing`: a 32-byte
HAS_SIGNING_KEY extension with flag byte 7, then an empty type-5
extension with flag byte 4. -/
def basicExtData : List Nat :=
  [0, 32, 4, 7] ++ List.replicate 32 17 ++ [0, 0, 5, 4]

/-- The decoded body of the `test_basic_parsing` certificate. -/
def basicBody : List Nat := certificateBytes 1 4 [0, 0, 0, 0] 2 basicExtData

/-- The certificate `test_basic_parsing` expects back. -/
def basicCert : Ed25519CertificateV1 :=
  { version := 1, encoded := .str (""), cert_type := 4, expiration := 0,
    key_type := 1, key := List.replicate 32 3,
    extensions :=
      [{ ext_type := 4,
         flags := [ExtensionFlag.AFFECTS_VALIDATION, ExtensionFlag.UNKNOWN],
         flag_int := 7, data := List.replicate 32 17 },
       { ext_type := 5, flags := [ExtensionFlag.UNKNOWN], flag_int := 4, data := [] }],
    signature := List.replicate 64 1 }

/-- A minimal well-formed 104-byte body: zero extensions. -/
def zeroExtBody : List Nat := certificateBytes 1 4 [0, 0, 0, 0] 0 []

/-- The certificate parsed from `zeroExtBody`. -/
def epochCert : Ed25519CertificateV1 :=
  { version := 1, encoded := .str (""), cert_type := 4, expiration := 0,
    key_type := 1, key := List.replicate 32 3, extensions := [],
    signature := List.replicate 64 1 }

/-- Base64 text decoding to `zeroExtBody`. -/
def zeroExtB64 : String :=
  "AQQAAAAAAQMDAwMDAwMDAwMDAwMDAwMDAwMDAwMDAwMDAwMDAwMDAAEBAQEBAQEBAQEBAQEBAQEBAQEBAQEBAQEBAQEBAQEBAQEBAQEBAQEBAQEBAQEBAQEBAQEBAQEBAQEBAQEBAQE="

/-- The truncated base64 input of `test_too_short`. -/
def shortB64 : String := "AQQABhtZAaW2GoBED1IjY3A6"

/-- What `shortB64` decodes to: 18 bytes. -/
def shortDecoded : List Nat :=
  [1, 4, 0, 6, 27, 89, 1, 165, 182, 26, 128, 68, 15, 82, 35, 99, 112, 58]

/-! ## Claims C1, C4, C5: certificate parse boundaries -/

/-- C1: parsing succeeds only when the declared extension count is
matched by exactly that many fully-decoded extensions whose declared
lengths equal the bytes consumed (on success, re-serializing the
parsed extensions reproduces the extension region byte for byte and
their number equals the count byte); an extension declaring more data
than remains fails naming the declared versus available byte counts;
bytes left over before the 64-byte signature fail naming the exact
surplus, one extra byte yielding the message
`1 bytes of unused extension data`. -/
theorem claim_C1 :
    (∀ (enc : CertInput) (d : List Nat) (cert : Ed25519CertificateV1),
        Ed25519Certificate.parseDecoded enc d = Except.ok cert →
        (∀ b ∈ d, b < 256) →
        cert.extensions.length = d.getD 39 0 ∧
          encodeExtList cert.extensions = (d.drop 40).take (d.length - 104)) ∧
    (∀ (count b0 b1 b2 b3 : Nat) (body : List Nat),
        body.length < b0 * 256 + b1 →
        parseExtensions (count + 1) (b0 :: b1 :: b2 :: b3 :: body) =
            Except.error (.truncatedExtension (b0 * 256 + b1) body.length) ∧
          mentionsNat
            (CertError.truncatedExtension (b0 * 256 + b1) body.length).message
            (b0 * 256 + b1) ∧
          mentionsNat
            (CertError.truncatedExtension (b0 * 256 + b1) body.length).message
            body.length) ∧
    (∀ leftover : List Nat, leftover ≠ [] →
        parseExtensions 0 leftover =
          Except.error (.unusedExtensionData leftover.length)) ∧
    (Ed25519Certificate.parseDecoded (.str (""))
          (certificateBytes 1 4 [0, 0, 0, 0] 1 [0, 1, 0, 0, 21, 18]) =
        Except.error (.unusedExtensionData 1) ∧
      (CertError.unusedExtensionData 1).message =
        ("Ed25519 certificate had 1 bytes of unused extension data")) := by
  refine ⟨?_, ?_, ?_, by decide⟩
  · intro enc d cert h hbytes
    obtain ⟨-, -, -, -, heq, -⟩ := parseDecoded_ok_inv enc d cert h
    have hmid : ∀ b ∈ (d.drop 40).take (d.length - 104), b < 256 := by
      intro b hb2
      exact hbytes b (List.drop_subset _ _ (List.take_subset _ _ hb2))
    have hok := parseExtensions_ok (d.getD 39 0) _ _ heq hmid
    exact ⟨hok.2, hok.1⟩
  · intro count b0 b1 b2 b3 body h
    refine ⟨?_, ?_, ?_⟩
    · simp only [parseExtensions]
      rw [if_pos h]
    · unfold mentionsNat
      simp only [CertError.message]
      exact mentions_left _ _ _ (mentions_left _ _ _ (mentions_mid _ _ _))
    · unfold mentionsNat
      simp only [CertError.message]
      exact mentions_mid _ _ _
  · intro leftover hne
    cases leftover with
    | nil => exact absurd rfl hne
    | cons a l => rfl

/-- C1 witness: the claim instantiated at the `test_basic_parsing`
certificate (two extensions), the `test_truncated_extension` bytes
(declares 20480, only 2 available) and the one-surplus-byte extension
region. -/
theorem claim_C1_witness :
    (basicCert.extensions.length = basicBody.getD 39 0 ∧
       encodeExtList basicCert.extensions =
         (basicBody.drop 40).take (basicBody.length - 104)) ∧
      parseExtensions 1 [80, 0, 0, 0, 21, 18] =
        Except.error (.truncatedExtension 20480 2) ∧
      parseExtensions 0 [18] = Except.error (.unusedExtensionData 1) :=
  ⟨claim_C1.1 (.str ("")) basicBody basicCert (by decide) (by decide),
   (claim_C1.2.1 0 80 0 0 0 [21, 18] (by decide)).1,
   claim_C1.2.2.1 [18] (by decide)⟩

/-- C4 counterexample: the empty input decodes to zero bytes, which
is fewer than 104, yet `parse` fails with the malformed-base64 error,
whose message names neither the decoded byte count nor the 104-byte
minimum. -/
theorem claim_C4_counterexample :
    b64decode (CertInput.toBytes (.str (""))) = some [] ∧
      (0 : Nat) < 104 ∧
      Ed25519Certificate.parse (.str ("")) =
        Except.error (.malformedBase64 ("empty")) ∧
      ¬ mentionsNat (CertError.malformedBase64 ("empty")).message 0 ∧
      ¬ mentionsNat (CertError.malformedBase64 ("empty")).message 104 := by decide

/-- C4 (amended): every input whose base64 decoding yields at least
one but fewer than 104 bytes fails with an error naming the decoded
byte count and the 104-byte minimum (an input decoding to zero bytes
instead fails as malformed base64); every well-formed input decoding
to exactly 104 bytes with zero extensions parses successfully. -/
theorem claim_C4 :
    (∀ (inp : CertInput) (d : List Nat),
        b64decode inp.toBytes = some d → d ≠ [] → d.length < 104 →
        Ed25519Certificate.parse inp = Except.error (.tooShort d.length) ∧
          mentionsNat (CertError.tooShort d.length).message d.length ∧
          mentionsNat (CertError.tooShort d.length).message 104) ∧
    (∀ (inp : CertInput) (d : List Nat),
        b64decode inp.toBytes = some d → d.length = 104 →
        d.getD 0 0 = 1 → d.getD 1 0 ≠ 0 → d.getD 1 0 ≠ 7 → d.getD 39 0 = 0 →
        (Ed25519Certificate.parse inp).isOk = true) := by
  constructor
  · intro inp d hdec hne hlen
    cases d with
    | nil => exact absurd rfl hne
    | cons x xs =>
      refine ⟨?_, ?_, ?_⟩
      · unfold Ed25519Certificate.parse
        rw [hdec]
        show Ed25519Certificate.parseDecoded inp (x :: xs) =
          Except.error (.tooShort (x :: xs).length)
        simp only [Ed25519Certificate.parseDecoded]
        rw [if_pos hlen]
      · unfold mentionsNat
        simp only [CertError.message]
        exact mentions_mid _ _ _
      · unfold mentionsNat
        simp only [CertError.message]
        exact mentions_right _ _ _ (by decide)
  · intro inp d hdec hlen h0 h1a h1b h39
    cases d with
    | nil => simp at hlen
    | cons x xs =>
      unfold Ed25519Certificate.parse
      rw [hdec]
      show (Ed25519Certificate.parseDecoded inp (x :: xs)).isOk = true
      simp only [Ed25519Certificate.parseDecoded]
      rw [if_neg (by omega), if_neg (by simpa using h0), if_neg (by omega), h39]
      have htake : ((x :: xs).drop 40).take ((x :: xs).length - 104) = [] := by
        rw [hlen]
        rfl
      rw [htake]
      rfl

/-- C4 witness: the amended claim at the two concrete inputs of
`test_too_short` (18 decoded bytes) and at a well-formed 104-byte
certificate. -/
theorem claim_C4_witness :
    (Ed25519Certificate.parse (.str shortB64) =
         Except.error (.tooShort shortDecoded.length) ∧
       mentionsNat (CertError.tooShort shortDecoded.length).message
         shortDecoded.length ∧
       mentionsNat (CertError.tooShort shortDecoded.length).message 104) ∧
      (Ed25519Certificate.parse (.str zeroExtB64)).isOk = true :=
  ⟨claim_C4.1 (.str shortB64) shortDecoded (by decide) (by decide) (by decide),
   claim_C4.2 (.str zeroExtB64) zeroExtBody (by decide) (by decide) (by decide)
     (by decide) (by decide) (by decide)⟩

/-- C5 counterexample: the one-byte body `[2]` has version byte 2,
but parsing fails with the length error, which names no version and
does not say the parser only supports version 1 — so a body whose
first byte is not 1 does not always fail with the version error. -/
theorem claim_C5_counterexample :
    Ed25519Certificate.parseDecoded (.str ("")) [2] =
        Except.error (.tooShort 1) ∧
      (CertError.tooShort 1).message =
        ("Ed25519 certificate was 1 bytes, but should be at least 104") ∧
      ¬ mentionsStr (CertError.tooShort 1).message ("version") := by decide

/-- C5 (amended): for every body of at least 104 bytes whose first
byte is not 1, parsing fails with an explicit error naming the
version found and stating the parser only supports version 1 (a
shorter body fails with the length error first); a successful parse
implies the version byte was 1 and the certificate version field is
1. -/
theorem claim_C5 :
    (∀ (enc : CertInput) (d : List Nat),
        104 ≤ d.length → d.getD 0 0 ≠ 1 →
        Ed25519Certificate.parseDecoded enc d =
            Except.error (.unsupportedVersion (d.getD 0 0)) ∧
          mentionsNat (CertError.unsupportedVersion (d.getD 0 0)).message
            (d.getD 0 0) ∧
          mentionsStr (CertError.unsupportedVersion (d.getD 0 0)).message
            ("only supports version 1")) ∧
    (∀ (enc : CertInput) (d : List Nat) (cert : Ed25519CertificateV1),
        Ed25519Certificate.parseDecoded enc d = Except.ok cert →
        d.getD 0 0 = 1 ∧ cert.version = 1) := by
  constructor
  · intro enc d hlen hv
    refine ⟨?_, ?_, ?_⟩
    · simp only [Ed25519Certificate.parseDecoded]
      rw [if_neg (by omega), if_pos hv]
    · unfold mentionsNat
      simp only [CertError.message]
      exact mentions_mid _ _ _
    · simp only [CertError.message]
      exact mentions_right _ _ _ (by decide)
  · intro enc d cert h
    obtain ⟨-, h0, -, -, -, hver, -⟩ := parseDecoded_ok_inv enc d cert h
    exact ⟨h0, hver⟩

/-- C5 witness: the amended claim at the version-2 certificate of
`test_with_invalid_version` and at the well-formed zero-extension
certificate. -/
theorem claim_C5_witness :
    (Ed25519Certificate.parseDecoded (.str ("")) (certificateBytes 2 4 [0, 0, 0, 0] 0 []) =
         Except.error (.unsupportedVersion 2) ∧
       mentionsNat (CertError.unsupportedVersion 2).message 2 ∧
       mentionsStr (CertError.unsupportedVersion 2).message
         ("only supports version 1")) ∧
      (zeroExtBody.getD 0 0 = 1 ∧ epochCert.version = 1) :=
  ⟨claim_C5.1 (.str ("")) (certificateBytes 2 4 [0, 0, 0, 0] 0 [])
      (by decide) (by decide),
   claim_C5.2 (.str ("")) zeroExtBody epochCert (by decide)⟩

/-! ## Claims C6 .. C10 -/

/-- C6 counterexample: two bodies whose second byte is 0 yet whose
parse failure is not the reserved-type error: a 104-byte body with
version byte 2 fails with the version error (spec step 3 precedes
step 4), and the 2-byte body `[1, 0]` fails with the minimum-length
error (step 2) — so the original claim's universal statement over
every body with second byte 0 or 7 is false. -/
theorem claim_C6_counterexample :
    Ed25519Certificate.parseDecoded (.str ("")) (certificateBytes 2 0 [0, 0, 0, 0] 0 []) =
        Except.error (.unsupportedVersion 2) ∧
      Ed25519Certificate.parseDecoded (.str ("")) [1, 0] =
        Except.error (.tooShort 2) ∧
      CertError.unsupportedVersion 2 ≠ CertError.reservedCertType 0 ∧
      CertError.tooShort 2 ≠ CertError.reservedCertType 0 := by decide

/-- C6 (amended): for every certificate body of at least 104 bytes
whose version byte is 1, a second byte of 0 or 7 is rejected with its
reserved reason (0 to avoid conflicts with tor CERTS cells, 7
reserved for RSA identity cross-certification); shorter bodies fail
with the minimum-length error and non-version-1 bodies with the
version error first.  Any other type byte is never rejected on this
ground, for every body. -/
theorem claim_C6 :
    (∀ (enc : CertInput) (d : List Nat),
        104 ≤ d.length → d.getD 0 0 = 1 → d.getD 1 0 = 0 →
        Ed25519Certificate.parseDecoded enc d =
            Except.error (.reservedCertType 0) ∧
          (CertError.reservedCertType 0).message =
            ("Ed25519 certificate cannot have a type of 0. This is reserved to avoid conflicts with tor CERTS cells.")) ∧
    (∀ (enc : CertInput) (d : List Nat),
        104 ≤ d.length → d.getD 0 0 = 1 → d.getD 1 0 = 7 →
        Ed25519Certificate.parseDecoded enc d =
            Except.error (.reservedCertType 7) ∧
          (CertError.reservedCertType 7).message =
            ("Ed25519 certificate cannot have a type of 7. This is reserved for RSA identity cross-certification.")) ∧
    (∀ (enc : CertInput) (d : List Nat) (t : Nat),
        d.getD 1 0 ≠ 0 → d.getD 1 0 ≠ 7 →
        Ed25519Certificate.parseDecoded enc d ≠
          Except.error (.reservedCertType t)) := by
  refine ⟨?_, ?_, ?_⟩
  · intro enc d hlen h0 ht
    refine ⟨?_, by decide⟩
    simp only [Ed25519Certificate.parseDecoded]
    rw [if_neg (by omega), if_neg (by omega), if_pos (Or.inl ht), ht]
  · intro enc d hlen h0 ht
    refine ⟨?_, by decide⟩
    simp only [Ed25519Certificate.parseDecoded]
    rw [if_neg (by omega), if_neg (by omega), if_pos (Or.inr ht), ht]
  · intro enc d t h1 h2 hcon
    simp only [Ed25519Certificate.parseDecoded] at hcon
    by_cases hl : d.length < 104
    · rw [if_pos hl] at hcon
      exact absurd hcon (by simp)
    · rw [if_neg hl] at hcon
      by_cases hv : d.getD 0 0 ≠ 1
      · rw [if_pos hv] at hcon
        exact absurd hcon (by simp)
      · rw [if_neg hv, if_neg (by omega)] at hcon
        cases heq : parseExtensions (d.getD 39 0) ((d.drop 40).take (d.length - 104)) with
        | error e =>
          simp only [heq, Except.error.injEq] at hcon
          subst hcon
          rcases parseExtensions_error_cases _ _ _ heq with h | ⟨da, a, h⟩ | ⟨a, h⟩ | ⟨s, h⟩ <;>
            simp at h
        | ok exts =>
          simp only [heq] at hcon
          exact absurd hcon (by simp)

/-- C6 witness: the claim at the cert-type-0 and cert-type-7
certificates of `test_with_invalid_cert_type`, and at a type-4
certificate, never rejected as reserved. -/
theorem claim_C6_witness :
    (Ed25519Certificate.parseDecoded (.str ("")) (certificateBytes 1 0 [0, 0, 0, 0] 0 []) =
         Except.error (.reservedCertType 0) ∧
       (CertError.reservedCertType 0).message =
         ("Ed25519 certificate cannot have a type of 0. This is reserved to avoid conflicts with tor CERTS cells.")) ∧
      (Ed25519Certificate.parseDecoded (.str ("")) (certificateBytes 1 7 [0, 0, 0, 0] 0 []) =
         Except.error (.reservedCertType 7) ∧
       (CertError.reservedCertType 7).message =
         ("Ed25519 certificate cannot have a type of 7. This is reserved for RSA identity cross-certification.")) ∧
      Ed25519Certificate.parseDecoded (.str ("")) zeroExtBody ≠
        Except.error (.reservedCertType 4) :=
  ⟨claim_C6.1 (.str ("")) (certificateBytes 1 0 [0, 0, 0, 0] 0 [])
      (by decide) (by decide) (by decide),
   claim_C6.2.1 (.str ("")) (certificateBytes 1 7 [0, 0, 0, 0] 0 [])
      (by decide) (by decide) (by decide),
   claim_C6.2.2 (.str ("")) zeroExtBody 4 (by decide) (by decide)⟩

/-- The certificate parsed from the `test_basic_parsing` layout with
expiration bytes 00 06 1B 59: 400217 hours, i.e. 2015-08-28 17:00. -/
def hoursCert2015 : Ed25519CertificateV1 :=
  { epochCert with expiration := 1440781200 }

/-- C7: the expiration of every parsed certificate is the 4-byte
big-endian value of body bytes 2..5 read as hours and scaled by 3600
seconds; four zero bytes yield 1970-01-01 00:00 and bytes
00 06 1B 59 yield 2015-08-28 17:00. -/
theorem claim_C7 :
    (∀ (enc : CertInput) (d : List Nat) (cert : Ed25519CertificateV1),
        Ed25519Certificate.parseDecoded enc d = Except.ok cert →
        cert.expiration = expirationHours d * 3600) ∧
    (Ed25519Certificate.parseDecoded (.str ("")) zeroExtBody = Except.ok epochCert ∧
      epochCert.expiration = 0 ∧
      dateTimeOfSecs epochCert.expiration = (1970, 1, 1, 0, 0)) ∧
    (Ed25519Certificate.parseDecoded (.str ("")) (certificateBytes 1 4 [0, 6, 27, 89] 0 []) =
        Except.ok hoursCert2015 ∧
      hoursCert2015.expiration = 400217 * 3600 ∧
      dateTimeOfSecs hoursCert2015.expiration = (2015, 8, 28, 17, 0)) := by
  refine ⟨?_, by decide, by decide⟩
  intro enc d cert h
  exact (parseDecoded_ok_inv enc d cert h).2.2.2.2.2.2.2.2.1

/-- C7 witness: the general expiration law at the 2015 certificate
body. -/
theorem claim_C7_witness :
    hoursCert2015.expiration =
      expirationHours (certificateBytes 1 4 [0, 6, 27, 89] 0 []) * 3600 :=
  claim_C7.1 (.str ("")) (certificateBytes 1 4 [0, 6, 27, 89] 0 []) hoursCert2015
    (by decide)

/-- C8: a HAS_SIGNING_KEY extension whose declared data is not
exactly 32 bytes fails with an error naming the actual size and the
required 32 bytes; in every successfully parsed certificate each
HAS_SIGNING_KEY extension carries exactly 32 bytes of data, and the
basic test certificate exposes its embedded signing key bytes as the
extension data. -/
theorem claim_C8 :
    (∀ (count b0 b1 b2 b3 : Nat) (body : List Nat),
        ¬ body.length < b0 * 256 + b1 → b2 = HAS_SIGNING_KEY →
        b0 * 256 + b1 ≠ 32 →
        parseExtensions (count + 1) (b0 :: b1 :: b2 :: b3 :: body) =
            Except.error (.badSigningKeyLength (b0 * 256 + b1)) ∧
          mentionsNat (CertError.badSigningKeyLength (b0 * 256 + b1)).message
            (b0 * 256 + b1) ∧
          mentionsStr (CertError.badSigningKeyLength (b0 * 256 + b1)).message
            ("32 bytes")) ∧
    (∀ (enc : CertInput) (d : List Nat) (cert : Ed25519CertificateV1),
        Ed25519Certificate.parseDecoded enc d = Except.ok cert →
        ∀ e ∈ cert.extensions, e.ext_type = HAS_SIGNING_KEY → e.data.length = 32) ∧
    (Ed25519Certificate.parseDecoded (.str ("")) basicBody = Except.ok basicCert ∧
      basicCert.extensions.getD 0
          { ext_type := 0, flags := [], flag_int := 0, data := [] } =
        { ext_type := 4,
          flags := [ExtensionFlag.AFFECTS_VALIDATION, ExtensionFlag.UNKNOWN],
          flag_int := 7, data := List.replicate 32 17 }) := by
  refine ⟨?_, ?_, by decide⟩
  · intro count b0 b1 b2 b3 body hlen htype hne
    have hdl : (body.take (b0 * 256 + b1)).length = b0 * 256 + b1 := by
      rw [List.length_take]
      omega
    refine ⟨?_, ?_, ?_⟩
    · simp only [parseExtensions]
      rw [if_neg hlen, if_pos ⟨htype, by rw [hdl]; exact hne⟩, hdl]
    · unfold mentionsNat
      simp only [CertError.message]
      exact mentions_mid _ _ _
    · simp only [CertError.message]
      exact mentions_left _ _ _ (mentions_left _ _ _ (by decide))
  · intro enc d cert h
    obtain ⟨-, -, -, -, heq, -⟩ := parseDecoded_ok_inv enc d cert h
    exact parseExtensions_signingKey _ _ _ heq

/-- C8 witness: the claim at the `test_truncated_signing_key` bytes
(a 2-byte HAS_SIGNING_KEY extension) and at the HAS_SIGNING_KEY
extension of the basic certificate. -/
theorem claim_C8_witness :
    (parseExtensions 1 [0, 2, 4, 7, 9, 10] =
         Except.error (.badSigningKeyLength 2) ∧
       mentionsNat (CertError.badSigningKeyLength 2).message 2 ∧
       mentionsStr (CertError.badSigningKeyLength 2).message ("32 bytes")) ∧
      ({ ext_type := 4,
         flags := [ExtensionFlag.AFFECTS_VALIDATION, ExtensionFlag.UNKNOWN],
         flag_int := 7, data := List.replicate 32 17 } : Ed25519Extension).data.length = 32 :=
  ⟨claim_C8.1 0 0 2 4 7 [9, 10] (by decide) (by decide) (by decide),
   claim_C8.2.1 (.str ("")) basicBody basicCert (by decide)
     { ext_type := 4,
       flags := [ExtensionFlag.AFFECTS_VALIDATION, ExtensionFlag.UNKNOWN],
       flag_int := 7, data := List.replicate 32 17 } (by decide) (by decide)⟩

/-- C9: validation resolves the verification key as the
caller-supplied override when given, else the embedded
HAS_SIGNING_KEY extension key, else the certificate key; and when the
recomputed digest does not verify under the resolved key, validation
fails with the forged-or-corrupt error, never success. -/
theorem claim_C9 :
    ∀ (cert : Ed25519CertificateV1)
      (verify : List Nat → List Nat → List Nat → Bool) (docBody : List Nat),
      (∀ k, resolveVerificationKey cert (some k) = k) ∧
      (∀ k, signingKeyOf cert = some k → resolveVerificationKey cert none = k) ∧
      (signingKeyOf cert = none → resolveVerificationKey cert none = cert.key) ∧
      (∀ override : Option (List Nat),
        verify (resolveVerificationKey cert override) docBody cert.signature = false →
        cert.validate verify docBody override =
            Except.error
              ("Ed25519KeyCertificate signing key is invalid (Signature was forged or corrupt)") ∧
          cert.validate verify docBody override ≠ Except.ok ()) := by
  intro cert verify docBody
  refine ⟨fun k => rfl, ?_, ?_, ?_⟩
  · intro k hk
    unfold resolveVerificationKey
    rw [hk]
  · intro hk
    unfold resolveVerificationKey
    rw [hk]
  · intro override hv
    constructor
    · unfold Ed25519CertificateV1.validate
      rw [hv, if_neg (by simp)]
    · unfold Ed25519CertificateV1.validate
      rw [hv, if_neg (by simp)]
      simp

/-- C9 witness: the resolution order and failure reporting at the
basic certificate (which embeds a signing key), at the zero-extension
certificate (which does not), and under an always-failing verifier. -/
theorem claim_C9_witness :
    resolveVerificationKey basicCert (some (List.replicate 32 5)) =
        List.replicate 32 5 ∧
      resolveVerificationKey basicCert none = List.replicate 32 17 ∧
      resolveVerificationKey epochCert none = epochCert.key ∧
      basicCert.validate (fun _ _ _ => false) [] none =
        Except.error
          ("Ed25519KeyCertificate signing key is invalid (Signature was forged or corrupt)") :=
  ⟨(claim_C9 basicCert (fun _ _ _ => false) []).1 (List.replicate 32 5),
   (claim_C9 basicCert (fun _ _ _ => false) []).2.1 (List.replicate 32 17) (by decide),
   (claim_C9 epochCert (fun _ _ _ => false) []).2.2.1 (by decide),
   ((claim_C9 basicCert (fun _ _ _ => false) []).2.2.2 none rfl).1⟩

/-- C10: whenever parsing succeeds, the certificate `encoded`
attribute is exactly the original input (a `str` stays the same
`str`, a `bytes` value the same `bytes`), with no normalization,
re-encoding or truncation. -/
theorem claim_C10 :
    ∀ (inp : CertInput) (cert : Ed25519CertificateV1),
      Ed25519Certificate.parse inp = Except.ok cert → cert.encoded = inp := by
  intro inp cert h
  unfold Ed25519Certificate.parse at h
  cases hdec : b64decode inp.toBytes with
  | none =>
    simp only [hdec] at h
    exact absurd h (by simp)
  | some d =>
    cases d with
    | nil =>
      simp only [hdec] at h
      exact absurd h (by simp)
    | cons x xs =>
      simp only [hdec] at h
      exact (parseDecoded_ok_inv inp (x :: xs) cert h).2.2.2.2.2.2.1

/-- C10 witness: the claim at the base64 of the zero-extension
certificate, passed once as a `str` and once as `bytes`. -/
theorem claim_C10_witness :
    ({ epochCert with encoded := CertInput.str zeroExtB64 } :
        Ed25519CertificateV1).encoded = CertInput.str zeroExtB64 ∧
      ({ epochCert with
           encoded := CertInput.bytes (zeroExtB64.toList.map Char.toNat) } :
          Ed25519CertificateV1).encoded =
        CertInput.bytes (zeroExtB64.toList.map Char.toNat) :=
  ⟨claim_C10 (.str zeroExtB64)
      { epochCert with encoded := CertInput.str zeroExtB64 } (by decide),
   claim_C10 (.bytes (zeroExtB64.toList.map Char.toNat))
      { epochCert with
          encoded := CertInput.bytes (zeroExtB64.toList.map Char.toNat) } (by decide)⟩
